import Mathlib

/-!
Shallow embedding of the record synchronization and verification
orchestrator in `src/react-dashboard/src/pages/Dashboard.js`.

The JavaScript component keeps six pieces of state (`cdrs`,
`filteredCdrs`, `loading`, `error`, `searchTerm`, `lastRefresh`) and
exposes three operations with real logic:

* `fetchCDRs`  — lists records from the backend, fans out one
  verification call per record with per-record failure isolation,
  and publishes the annotated set;
* `filterCDRs` — recomputes the search-filtered subset;
* `getStats`   — derives aggregate counters from the full record set.

JavaScript objects become a `Record` structure with optional fields;
truthiness tests on optional strings/booleans are made explicit; the
remote calls (`cdrAPI.getAllCDRs`, `cdrAPI.verifyCDR`) become explicit
result parameters (`Except` values / an oracle function), and the
sequencing of state setters inside `fetchCDRs` becomes a trace of
intermediate states.
-/

namespace Dashboard

/-- One CDR as handled by the dashboard.  `ipfs_cid`, `status` and
`verified` may be absent on a raw record coming from the backend. -/
structure Record where
  caller : String
  callee : String
  hash : String
  ipfs_cid : Option String := none
  status : Option String := none
  verified : Option Bool := none
deriving Repr, DecidableEq

/-- Derived aggregate counters, as returned by `getStats`. -/
structure Stats where
  total : Nat
  verified : Nat
  withIPFS : Nat
  errors : Nat
deriving Repr, DecidableEq

/-- The React component state that the orchestrator reads and writes. -/
structure DashState where
  cdrs : List Record
  filteredCdrs : List Record
  loading : Bool
  error : Option String
  searchTerm : String
  lastRefresh : Nat
deriving Repr, DecidableEq

/-- JavaScript truthiness of an optional string: `undefined` and the
empty string are falsy. -/
def truthyStr : Option String → Bool
  | some s => !(s == "")
  | none => false

/-- JavaScript truthiness of an optional boolean: `undefined` is falsy. -/
def truthyBool : Option Bool → Bool
  | some b => b
  | none => false

/-- The oracle standing for `cdrAPI.verifyCDR(i, cdr.ipfs_cid)`:
given the record index and the record's `ipfs_cid`, the call either
resolves with a boolean `verified` field or rejects with an error. -/
abbrev VerifyOracle := Nat → Option String → Except String Bool

/-- The body of the arrow function mapped over `records` in
`fetchCDRs`: awaits `verifyCDR(i, cdr.ipfs_cid)`, on success spreads
the record with `verified` set to the result, on rejection catches and
spreads the record with `verified: false`. -/
def verifyOne (v : VerifyOracle) (i : Nat) (cdr : Record) : Record :=
  match v i cdr.ipfs_cid with
  | .ok vres => { cdr with verified := some vres }
  | .error _ => { cdr with verified := some false }

/-- The per-record fan-out `Promise.all(records.map(async (cdr, i) => ...))`
inside `fetchCDRs`: each record is verified with its index. -/
def verifyAll (v : VerifyOracle) (records : List Record) : List Record :=
  records.enum.map fun p => verifyOne v p.1 p.2

/-- The fixed message installed by the catch branch of `fetchCDRs`. -/
def fetchErrorMsg : String :=
  "Failed to fetch CDR data. Please check if the backend is running."

/-- The result of `await cdrAPI.getAllCDRs()`: the call either rejects,
or resolves with a response whose `cdrs` field may be missing/falsy
(`none`) or hold a list of raw records. -/
abbrev ListResult := Except String (Option (List Record))

/-- The sequence of states produced by one run of `fetchCDRs`, one entry
per state-setter call, in program order:
`setLoading(true)`, `setError(null)`, then on success
`setCdrs(verifiedResults)`, `setLastRefresh(now)`, and on failure
`setError(fetchErrorMsg)`; the `finally` block ends both branches with
`setLoading(false)`. -/
def fetchTrace (v : VerifyOracle) (listResult : ListResult) (now : Nat)
    (s0 : DashState) : List DashState :=
  let s1 := { s0 with loading := true }
  let s2 := { s1 with error := none }
  match listResult with
  | .ok response =>
    let records := response.getD []
    let verifiedResults := verifyAll v records
    let s3 := { s2 with cdrs := verifiedResults }
    let s4 := { s3 with lastRefresh := now }
    let s5 := { s4 with loading := false }
    [s1, s2, s3, s4, s5]
  | .error _ =>
    let s3 := { s2 with error := some fetchErrorMsg }
    let s4 := { s3 with loading := false }
    [s1, s2, s3, s4]

/-- The state after a completed run of `fetchCDRs`. -/
def fetchCDRs (v : VerifyOracle) (listResult : ListResult) (now : Nat)
    (s0 : DashState) : DashState :=
  (fetchTrace v listResult now s0).getLastD s0

/-- Characters of a string lowercased, the embedding of
`s.toLowerCase()` for substring tests. -/
def lowerChars (s : String) : List Char := s.toList.map Char.toLower

/-- `startsWithChars pat l` holds when `pat` is an initial segment of `l`. -/
def startsWithChars : List Char → List Char → Bool
  | [], _ => true
  | _ :: _, [] => false
  | a :: as, b :: bs => a == b && startsWithChars as bs

/-- `hasSubstr pat l` is the embedding of `l.includes(pat)`: `pat`
occurs contiguously somewhere in `l`. -/
def hasSubstr (pat : List Char) : List Char → Bool
  | [] => pat.isEmpty
  | b :: bs => startsWithChars pat (b :: bs) || hasSubstr pat bs

/-- JavaScript `String.prototype.trim` on the character list: strip
leading and trailing whitespace. -/
def trimChars (l : List Char) : List Char :=
  ((l.dropWhile Char.isWhitespace).reverse.dropWhile Char.isWhitespace).reverse

/-- The predicate inside `cdrs.filter` in `filterCDRs`: the lowercased
search value is a substring of the lowercased caller, callee or hash,
or — guarded by the truthiness of `cdr.ipfs_cid` — of the lowercased
`ipfs_cid`. -/
def matchRecord (cdr : Record) (searchValue : String) : Bool :=
  hasSubstr (lowerChars searchValue) (lowerChars cdr.caller)
  || hasSubstr (lowerChars searchValue) (lowerChars cdr.callee)
  || hasSubstr (lowerChars searchValue) (lowerChars cdr.hash)
  || (match cdr.ipfs_cid with
      | some cid => !(cid == "") && hasSubstr (lowerChars searchValue) (lowerChars cid)
      | none => false)

/-- The pure content of `filterCDRs`: if `searchValue.trim()` is falsy
(empty after trimming) the record list is returned unchanged, otherwise
the filtered sublist. -/
def filterCDRsFn (cdrs : List Record) (searchValue : String) : List Record :=
  if (trimChars searchValue.toList).isEmpty then cdrs
  else cdrs.filter fun cdr => matchRecord cdr searchValue

/-- `filterCDRs(searchValue)` as a state transformer: recomputes
`filteredCdrs` from the current `cdrs` and the search value. -/
def filterCDRs (searchValue : String) (s : DashState) : DashState :=
  { s with filteredCdrs := filterCDRsFn s.cdrs searchValue }

/-- `handleSearch(searchValue)`: store the term, then re-filter. -/
def handleSearch (searchValue : String) (s : DashState) : DashState :=
  filterCDRs searchValue { s with searchTerm := searchValue }

/-- `getStats()` over a record list: total count, records that are
verified by status or by the orchestrator's boolean, records with a
truthy `ipfs_cid`, and records whose status is an error kind. -/
def getStats (cdrs : List Record) : Stats :=
  { total := cdrs.length
  , verified := (cdrs.filter fun cdr =>
      cdr.status == some "verified" || truthyBool cdr.verified).length
  , withIPFS := (cdrs.filter fun cdr => truthyStr cdr.ipfs_cid).length
  , errors := (cdrs.filter fun cdr =>
      cdr.status == some "error" || cdr.status == some "mismatch").length }

/-! ### Specification-side definitions

These render the spec's own wording (section 4.3 of the spec), to be
compared with the code-derived definitions above. -/

/-- Modelled from the spec's wording for `computeStats`: `verified`
counts records where `status == "verified"` OR `verified == true`;
`withExternalStorage` counts records whose storage reference is
present and non-empty. -/
def computeStats_spec (records : List Record) : Stats :=
  { total := records.length
  , verified := (records.filter fun r =>
      r.status == some "verified" || r.verified == some true).length
  , withIPFS := (records.filter fun r =>
      match r.ipfs_cid with
      | some s => decide (s ≠ "")
      | none => false).length
  , errors := (records.filter fun r =>
      r.status == some "error" || r.status == some "mismatch").length }

/-- Modelled from the spec's wording for `filter`: a record matches
when the lowercase term is a substring of at least one of the
lowercase caller, callee, hash, or `externalStorageRef` — the last
tested exactly when present. -/
def matchRecord_spec (r : Record) (term : String) : Bool :=
  hasSubstr (lowerChars term) (lowerChars r.caller)
  || hasSubstr (lowerChars term) (lowerChars r.callee)
  || hasSubstr (lowerChars term) (lowerChars r.hash)
  || (match r.ipfs_cid with
      | some cid => hasSubstr (lowerChars term) (lowerChars cid)
      | none => false)

/-- Modelled from the spec's wording for `filter`: identity when the
term is empty or whitespace-only, otherwise the matching subsequence. -/
def filter_spec (records : List Record) (term : String) : List Record :=
  if term.toList.all Char.isWhitespace then records
  else records.filter fun r => matchRecord_spec r term

/-! ### Concrete records and oracles used as evaluation points -/

/-- First record of the section-8 scenario. -/
def recA : Record := { caller := "A", callee := "B", hash := "h1", status := some "verified" }

/-- Second record of the section-8 scenario. -/
def recC : Record := { caller := "C", callee := "D", hash := "h2", status := some "error" }

/-- A record whose backend status is `"verified"` and whose
orchestrator boolean is unset. -/
def recVstat : Record := { caller := "x", callee := "y", hash := "g1", status := some "verified" }

/-- A record with `verified = true` but no backend status. -/
def recVbool : Record := { caller := "p", callee := "q", hash := "g2", verified := some true }

/-- An oracle whose every verification call succeeds with `true`. -/
def vOkTrue : VerifyOracle := fun _ _ => Except.ok true

/-- An oracle that rejects exactly at index 0 and otherwise answers
like `vOkTrue`. -/
def vFail0 : VerifyOracle := fun i _ => if i = 0 then Except.error "boom" else Except.ok true

/-- An initial component state: empty record set, not loading, no
error, empty search term, epoch timestamp. -/
def initState : DashState :=
  { cdrs := [], filteredCdrs := [], loading := false, error := none
  , searchTerm := "", lastRefresh := 0 }

/-! ### Helper lemmas -/

/-- Indexing the fan-out result: position `i` of the output is
position `i` of the input passed through `verifyOne` at index `i`. -/
theorem verifyAll_getElem (v : VerifyOracle) (l : List Record) (i : Nat) :
    (verifyAll v l)[i]? = l[i]?.map (verifyOne v i) := by
  simp [verifyAll, List.getElem?_map, List.getElem?_enum]
  cases l[i]? <;> rfl

/-- The fan-out preserves length. -/
theorem verifyAll_length (v : VerifyOracle) (l : List Record) :
    (verifyAll v l).length = l.length := by
  simp [verifyAll]

/-- Trimming yields the empty list exactly when every character is
whitespace. -/
theorem trimChars_eq_nil_iff (l : List Char) :
    trimChars l = [] ↔ ∀ c ∈ l, c.isWhitespace := by
  unfold trimChars
  rw [List.reverse_eq_nil_iff, List.dropWhile_eq_nil_iff]
  simp only [List.mem_reverse]
  constructor
  · intro hd c hc
    have hsplit : c ∈ l.takeWhile Char.isWhitespace ++ l.dropWhile Char.isWhitespace := by
      rw [List.takeWhile_append_dropWhile]; exact hc
    rcases List.mem_append.mp hsplit with h1 | h2
    · exact List.mem_takeWhile_imp h1
    · exact hd c h2
  · intro hall c hc
    exact hall c ((List.dropWhile_sublist _).subset hc)

/-- Truthiness of an optional boolean agrees with equality to `some true`. -/
theorem truthyBool_eq (o : Option Bool) : truthyBool o = (o == some true) := by
  cases o with
  | none => rfl
  | some b => cases b <;> rfl

/-! ### Claim theorems -/

/-- Claim C1: for every non-empty input sequence of records, the
per-record fan-out inside `fetchCDRs` returns a sequence of the same
length as the input, in the same index order (the output at index `i`
is the input record at index `i`, re-annotated), and every output
record carries a defined boolean `verified` field. -/
theorem verifyAll_length_and_defined (v : VerifyOracle) (records : List Record)
    (hne : records ≠ []) :
    (verifyAll v records).length = records.length
    ∧ ∀ (i : Nat) (r : Record), records[i]? = some r →
        ∃ b : Bool, (verifyAll v records)[i]? = some { r with verified := some b } := by
  refine ⟨verifyAll_length v records, ?_⟩
  intro i r hr
  rw [verifyAll_getElem, hr]
  unfold verifyOne
  cases hv : v i r.ipfs_cid with
  | ok b => exact ⟨b, by simp [hv]⟩
  | error e => exact ⟨false, by simp [hv]⟩

/-- Witness for claim C1 at the concrete one-record input `[recA]`
with the always-true oracle. -/
theorem verifyAll_length_and_defined_witness :
    (verifyAll vOkTrue [recA]).length = [recA].length
    ∧ ∃ b : Bool, (verifyAll vOkTrue [recA])[0]? = some { recA with verified := some b } :=
  ⟨(verifyAll_length_and_defined vOkTrue [recA] (List.cons_ne_nil _ _)).1,
   (verifyAll_length_and_defined vOkTrue [recA] (List.cons_ne_nil _ _)).2 0 recA rfl⟩

/-- Claim C2: if the verification oracle rejects at index `k`, the
output record at `k` carries `verified = false`, every other index is
exactly what it would have been with a non-failing oracle that agrees
elsewhere, the output is still a full-length list, and running the
surrounding `fetchCDRs` with a successful list response completes
without surfacing any error to its caller. -/
theorem verifyAll_failure_isolation (v vf : VerifyOracle) (records : List Record)
    (k : Nat)
    (hfail : ∀ ref, ∃ e, vf k ref = Except.error e)
    (hsame : ∀ i, i ≠ k → vf i = v i) :
    (∀ r : Record, records[k]? = some r →
        (verifyAll vf records)[k]? = some { r with verified := some false })
    ∧ (∀ i, i ≠ k → (verifyAll vf records)[i]? = (verifyAll v records)[i]?)
    ∧ (verifyAll vf records).length = records.length
    ∧ ∀ (resp : Option (List Record)) (now : Nat) (s0 : DashState),
        (fetchCDRs vf (Except.ok resp) now s0).error = none := by
  refine ⟨?_, ?_, verifyAll_length vf records, ?_⟩
  · intro r hr
    rw [verifyAll_getElem, hr]
    obtain ⟨e, he⟩ := hfail r.ipfs_cid
    simp [verifyOne, he]
  · intro i hi
    rw [verifyAll_getElem, verifyAll_getElem]
    cases records[i]? <;> simp [verifyOne, hsame i hi]
  · intro resp now s0
    rfl

/-- Witness for claim C2 at the two-record input, with the oracle
failing exactly at index 0. -/
theorem verifyAll_failure_isolation_witness :
    (verifyAll vFail0 [recA, recC])[0]? = some { recA with verified := some false }
    ∧ (verifyAll vFail0 [recA, recC])[1]? = (verifyAll vOkTrue [recA, recC])[1]? := by
  have h := verifyAll_failure_isolation vOkTrue vFail0 [recA, recC] 0
    (fun ref => ⟨"boom", rfl⟩)
    (fun i hi => funext fun ref => by simp [vFail0, vOkTrue, hi])
  exact ⟨h.1 recA rfl, h.2.1 1 (by decide)⟩

/-- Claim C7: when the verification call at index `i` succeeds with
boolean `b`, the output record at `i` is the input record with only
`verified` changed to `b`; every other field is unchanged. -/
theorem verifyAll_success_frame (v : VerifyOracle) (records : List Record)
    (i : Nat) (r : Record) (b : Bool)
    (hr : records[i]? = some r) (hv : v i r.ipfs_cid = Except.ok b) :
    (verifyAll v records)[i]? = some { r with verified := some b }
    ∧ ({ r with verified := some b }).caller = r.caller
    ∧ ({ r with verified := some b }).callee = r.callee
    ∧ ({ r with verified := some b }).hash = r.hash
    ∧ ({ r with verified := some b }).ipfs_cid = r.ipfs_cid
    ∧ ({ r with verified := some b }).status = r.status := by
  refine ⟨?_, rfl, rfl, rfl, rfl, rfl⟩
  rw [verifyAll_getElem, hr]
  simp [verifyOne, hv]

/-- Witness for claim C7 at the concrete input `[recC]` with the
always-true oracle. -/
theorem verifyAll_success_frame_witness :
    (verifyAll vOkTrue [recC])[0]? = some { recC with verified := some true } :=
  (verifyAll_success_frame vOkTrue [recC] 0 recC true rfl rfl).1

/-- Claim C3: `getStats` agrees with the spec's `computeStats` on every
record list (total, either-signal verified count, present-and-non-empty
storage count, error/mismatch count), returns all-zero counts on the
empty list, counts `verified = 2` when one record has status
`"verified"` and the other has `verified = true` with status unset, and
returns `{total 2, verified 1, withIPFS 0, errors 1}` on the section-8
scenario records. -/
theorem getStats_spec_and_examples :
    (∀ cdrs : List Record, getStats cdrs = computeStats_spec cdrs)
    ∧ getStats [] = { total := 0, verified := 0, withIPFS := 0, errors := 0 }
    ∧ (getStats [recVstat, recVbool]).verified = 2
    ∧ getStats [recA, recC] = { total := 2, verified := 1, withIPFS := 0, errors := 1 } := by
  refine ⟨?_, by decide, by decide, by decide⟩
  intro cdrs
  unfold getStats computeStats_spec
  simp only [Stats.mk.injEq]
  refine ⟨trivial, ?_, ?_, trivial⟩
  · refine congrArg List.length (List.filter_congr fun r _ => ?_)
    rw [truthyBool_eq]
  · refine congrArg List.length (List.filter_congr fun r _ => ?_)
    cases hc : r.ipfs_cid with
    | none => rfl
    | some s => by_cases hs : s = "" <;> simp [truthyStr, hs]

/-- Claim C4: `filterCDRs` computes exactly the spec's `filter`: the
identity on an empty or whitespace-only term, and otherwise the
subsequence of records where the lowercased term occurs in the
lowercased caller, callee, hash, or storage reference (the last tested
only when present). -/
theorem filterCDRs_matches_spec :
    ∀ (records : List Record) (term : String),
      filterCDRsFn records term = filter_spec records term := by
  intro records term
  unfold filterCDRsFn filter_spec
  by_cases hw : ∀ c ∈ term.toList, c.isWhitespace
  · rw [if_pos (List.isEmpty_iff.mpr ((trimChars_eq_nil_iff _).mpr hw)),
      if_pos (List.all_eq_true.mpr hw)]
  · have htne : term.toList ≠ [] := by
      intro h0
      exact hw (by rw [h0]; intro c hc; cases hc)
    have hlne : lowerChars term ≠ [] := by
      simp only [lowerChars, ne_eq, List.map_eq_nil_iff]
      exact htne
    rw [if_neg (fun h => hw ((trimChars_eq_nil_iff _).mp (List.isEmpty_iff.mp h))),
      if_neg (fun h => hw (List.all_eq_true.mp h))]
    refine List.filter_congr fun r _ => ?_
    unfold matchRecord matchRecord_spec
    cases hc : r.ipfs_cid with
    | none => rfl
    | some cid =>
      by_cases hcid : cid = ""
      · subst hcid
        have hsub : hasSubstr (lowerChars term) (lowerChars "") = false := by
          cases hp : lowerChars term with
          | nil => exact absurd hp hlne
          | cons a as => rfl
        simp [hsub]
      · have hb : (cid == "") = false := beq_eq_false_iff_ne.mpr hcid
        simp [hb]

/-- Claim C5: whenever the list operation rejects, the completed
`fetchCDRs` run leaves the previously held record set untouched and
installs the fixed, non-empty generic failure message as the error
state. -/
theorem fetchCDRs_failure_preserves_records :
    ∀ (v : VerifyOracle) (e : String) (now : Nat) (s : DashState),
      (fetchCDRs v (Except.error e) now s).cdrs = s.cdrs
      ∧ (fetchCDRs v (Except.error e) now s).error = some fetchErrorMsg
      ∧ fetchErrorMsg ≠ "" := by
  intro v e now s
  exact ⟨rfl, rfl, by decide⟩

/-- Counterexample to claim C6 as stated: a failed fetch at time 1
starting from `initState` (whose timestamp is 0) leaves the timestamp
at 0, so the timestamp is not updated on every completed cycle. -/
theorem fetchCDRs_lastRefresh_counterexample :
    (fetchCDRs vOkTrue (Except.error "boom") 1 initState).lastRefresh ≠ 1 := by
  decide

/-- Claim C6 amended: the timestamp is updated exactly by successful
refresh cycles; a failed fetch leaves `lastRefresh` unchanged, because
`setLastRefresh` sits inside the `try` block after the fetch. -/
theorem fetchCDRs_lastRefresh_update :
    ∀ (v : VerifyOracle) (now : Nat) (s : DashState),
      (∀ resp : Option (List Record),
        (fetchCDRs v (Except.ok resp) now s).lastRefresh = now)
      ∧ ∀ e : String, (fetchCDRs v (Except.error e) now s).lastRefresh = s.lastRefresh := by
  intro v now s
  exact ⟨fun resp => rfl, fun e => rfl⟩

/-- Claim C8: every `fetchCDRs` run starts by setting the loading flag
and clearing any existing error (its first two state writes), and its
final state has the loading flag cleared, on the success branch and the
failure branch alike. -/
theorem fetchCDRs_loading_protocol :
    ∀ (v : VerifyOracle) (listResult : ListResult) (now : Nat) (s : DashState),
      (fetchTrace v listResult now s).take 2
        = [{ s with loading := true }, { s with loading := true, error := none }]
      ∧ (fetchCDRs v listResult now s).loading = false := by
  intro v listResult now s
  cases listResult with
  | ok resp => exact ⟨rfl, rfl⟩
  | error e => exact ⟨rfl, rfl⟩

/-- Claim C9: the statistics are computed over the full unfiltered
record set, so two searches with arbitrary different terms leave the
stats identical — the search term does not interfere with `getStats`. -/
theorem getStats_search_noninterference :
    ∀ (s : DashState) (t1 t2 : String),
      getStats (handleSearch t1 s).cdrs = getStats (handleSearch t2 s).cdrs := by
  intro s t1 t2
  rfl

/-- Claim C10: when the list call succeeds but the response carries no
`cdrs` field, `fetchCDRs` treats it as the empty record list: the
record set becomes empty and the cycle completes with no error and the
loading flag cleared. -/
theorem fetchCDRs_missing_cdrs_field :
    ∀ (v : VerifyOracle) (now : Nat) (s : DashState),
      (fetchCDRs v (Except.ok none) now s).cdrs = []
      ∧ (fetchCDRs v (Except.ok none) now s).error = none
      ∧ (fetchCDRs v (Except.ok none) now s).loading = false := by
  intro v now s
  exact ⟨rfl, rfl, rfl⟩

end Dashboard
